import Mathlib

/-!
Verification development for the GraphRAG Explorer repository.

The definitions below are a shallow embedding of the repository's
TypeScript source: the relevance-retrieval engine and response
generation (`App.tsx`: `simulateGraphRetrieval`, `generateResponse`,
`handleSendMessage`, `handleNodeSelect`), the edge-highlight
derivation and selection toggle (`GraphVisualization.tsx`), the
chunked text streamer (`lib/utils.ts`: `streamText`), the sample
query table (`data/sampleGraph.ts`), and the force-layout tick
(modelled from the spec, since the tick itself lives in the d3-force
library and not in this repository).

JavaScript strings are modelled as Lean `String`; `split(' ')`,
`includes`, `toLowerCase` and `JSON.stringify` are embedded
explicitly below with JavaScript semantics.
-/

/-- Embedding of JavaScript `text.split(' ')` on character lists: splits at
every space character, keeping empty segments (so `"a  b"` gives
`["a", "", "b"]` and `""` gives `[""]`). -/
def splitSpace : List Char → List (List Char)
  | [] => [[]]
  | c :: cs =>
    if c = ' ' then [] :: splitSpace cs
    else
      match splitSpace cs with
      | [] => [[c]]
      | w :: ws => (c :: w) :: ws

/-- Joins word segments back with a single space between consecutive
segments: the inverse direction of `splitSpace`. -/
def joinSpace : List (List Char) → List Char
  | [] => []
  | [w] => w
  | w :: ws => w ++ ' ' :: joinSpace ws

/-- Embedding of the chunk construction in `streamText`
(`lib/utils.ts`): each word is emitted followed by a space except the
last one (`words[i] + (i < words.length - 1 ? ' ' : '')`). -/
def chunksAux : List (List Char) → List (List Char)
  | [] => []
  | [w] => [w]
  | w :: ws => (w ++ [' ']) :: chunksAux ws

/-- Boolean test that the first list is a leading segment of the second. -/
def charsLeading : List Char → List Char → Bool
  | [], _ => true
  | _ :: _, [] => false
  | a :: as, b :: bs => a == b && charsLeading as bs

/-- Occurrence test of `n` inside `h`, scanning every suffix of `h`. -/
def charsIncludes (n : List Char) : List Char → Bool
  | [] => charsLeading n []
  | c :: t => charsLeading n (c :: t) || charsIncludes n t

/-- Embedding of JavaScript `hay.includes(needle)` for strings. -/
def jsIncludes (hay needle : String) : Bool :=
  charsIncludes needle.data hay.data

/-- Embedding of JavaScript `s.toLowerCase()` (character-wise lowering,
which agrees with it on the ASCII text of this repository). -/
def jsToLower (s : String) : String :=
  ⟨s.data.map Char.toLower⟩

/-- Embedding of JavaScript `s.split(' ')` for strings. -/
def jsSplitSpace (s : String) : List String :=
  (splitSpace s.data).map (fun l => (⟨l⟩ : String))

/-- Embedding of `JSON.stringify` on a record whose values are strings
(the shape of every `properties` bag in the sample dataset):
produces `\x7b"k":"v",...\x7d`. -/
def jsonStringify (props : List (String × String)) : String :=
  "\x7b" ++ String.intercalate ","
    (props.map (fun kv => "\"" ++ kv.1 ++ "\":\"" ++ kv.2 ++ "\"")) ++ "\x7d"

/-- Embedding of `GraphNode` from `types/index.ts`; the attribute bag is
an ordered string-to-string mapping, matching the sample dataset. -/
structure GraphNode where
  id : String
  label : String
  type : String
  properties : List (String × String)
deriving DecidableEq

/-- Embedding of the `string | GraphNode` endpoint type of
`GraphRelationship` (`types/index.ts`): an endpoint is a node-id string
in the dataset literal, and a live node-object reference after d3's
link force resolves it. -/
inductive EdgeEndpoint where
  | id (s : String)
  | node (n : GraphNode)
deriving DecidableEq

/-- Embedding of `GraphRelationship` from `types/index.ts`: `source` and
`target` have type `string | GraphNode`. -/
structure GraphRel where
  id : String
  source : EdgeEndpoint
  target : EdgeEndpoint
  type : String
deriving DecidableEq

/-- Embedding of `GraphData` from `types/index.ts`. -/
structure GraphData where
  nodes : List GraphNode
  relationships : List GraphRel
deriving DecidableEq

/-- Embedding of the searchable blob in `simulateGraphRetrieval`
(`App.tsx`): `` `${node.label} ${JSON.stringify(node.properties)}`.toLowerCase() ``. -/
def nodeText (n : GraphNode) : String :=
  jsToLower (n.label ++ " " ++ jsonStringify n.properties)

/-- Embedding of the per-node match test in `simulateGraphRetrieval`:
`keywords.some(keyword => keyword.length > 3 && nodeText.includes(keyword))`. -/
def nodeMatches (keywords : List String) (n : GraphNode) : Bool :=
  keywords.any (fun k => decide (3 < k.length) && jsIncludes (nodeText n) k)

/-- The keyword list of `simulateGraphRetrieval`:
`query.toLowerCase().split(' ')`. -/
def queryKeywords (query : String) : List String :=
  jsSplitSpace (jsToLower query)

/-- All nodes matching the query, in Graph-Store iteration order (the
`filter` step of `simulateGraphRetrieval`). -/
def matchedNodes (query : String) (g : GraphData) : List GraphNode :=
  g.nodes.filter (nodeMatches (queryKeywords query))

/-- Embedding of `simulateGraphRetrieval` (`App.tsx`): filter the store's
nodes by keyword match, then `.slice(0, 3)`. -/
def simulateGraphRetrieval (query : String) (g : GraphData) : List GraphNode :=
  (matchedNodes query g).take 3

/-- Embedding of an entry of `sampleQueries` (`data/sampleGraph.ts`). -/
structure SampleQuery where
  natural : String
  cypher : String
  explanation : String
deriving DecidableEq

/-- First entry of `sampleQueries`. -/
def sampleQuery1 : SampleQuery :=
  { natural := "How does GraphRAG improve AI accuracy?",
    cypher := "MATCH path = (graphrag:Technology \x7blabel: \x27GraphRAG\x27\x7d)-[*1..3]-(accuracy:Concept \x7blabel: \x27Response Accuracy\x27\x7d)\nRETURN path",
    explanation := "Multi-hop pattern matching to find all paths between GraphRAG and Accuracy" }

/-- Second entry of `sampleQueries`. -/
def sampleQuery2 : SampleQuery :=
  { natural := "What companies use Neo4j and for what purpose?",
    cypher := "MATCH (company:Company)-[:USES]->(neo4j:Technology \x7blabel: \x27Neo4j\x27\x7d)\nMATCH (company)-[:APPLIED_FOR]->(useCase)\nRETURN company.label as Company, useCase.label as UseCase, company.achievement as Achievement",
    explanation := "Relationship traversal to connect companies with their use cases" }

/-- Third entry of `sampleQueries`. -/
def sampleQuery3 : SampleQuery :=
  { natural := "How is GraphRAG different from regular RAG?",
    cypher := "MATCH (graphrag:Technology \x7blabel: \x27GraphRAG\x27\x7d)-[:ENHANCES]->(rag:Technology)\nMATCH (graphrag)-[:USES]->(tech)\nMATCH (rag)-[:OFTEN_USES]->(altTech)\nRETURN graphrag, rag, tech, altTech",
    explanation := "Pattern comparison showing architectural differences" }

/-- Fourth entry of `sampleQueries`. -/
def sampleQuery4 : SampleQuery :=
  { natural := "What are the main challenges facing GenAI?",
    cypher := "MATCH (challenge)-[r:CHALLENGE_FOR]->(genai:Concept \x7blabel: \x27Generative AI\x27\x7d)\nRETURN challenge.label as Challenge, challenge.description as Description, r.severity as Severity\nORDER BY r.severity DESC",
    explanation := "Relationship properties used for filtering and sorting" }

/-- Embedding of `sampleQueries` (`data/sampleGraph.ts`). -/
def sampleQueries : List SampleQuery :=
  [sampleQuery1, sampleQuery2, sampleQuery3, sampleQuery4]

/-- First canned narrative of the `responses` table in `generateResponse`
(`App.tsx`). -/
def cannedAnswer1 : String :=
  "GraphRAG significantly improves AI accuracy by leveraging graph databases to provide relationship-aware context to language models. Unlike traditional RAG systems that retrieve isolated documents, GraphRAG understands how entities are connected. This enables the AI to:\n\n1. Follow multi-hop relationships to find relevant context\n2. Understand semantic connections between concepts\n3. Provide citations that show the reasoning path\n4. Reduce hallucinations by grounding responses in structured knowledge\n\nThe graph structure naturally encodes the relationships that make responses more accurate and explainable."

/-- Second canned narrative of the `responses` table. -/
def cannedAnswer2 : String :=
  "Several leading organizations use Neo4j for mission-critical applications:\n\nNASA uses Neo4j for mission planning and resource optimization, which helped them reach Mars 2 years earlier than originally planned. The graph database\x27s ability to model complex relationships between resources, schedules, and constraints was essential.\n\nThe International Consortium of Investigative Journalists (ICIJ) used Neo4j to break the Panama Papers story, uncovering hidden financial networks by traversing relationships between shell companies, individuals, and transactions.\n\nThese use cases demonstrate how graph databases excel at revealing patterns in highly connected data."

/-- Third canned narrative of the `responses` table. -/
def cannedAnswer3 : String :=
  "GraphRAG enhances traditional RAG by replacing or augmenting vector databases with graph databases:\n\nTraditional RAG typically uses vector databases for similarity-based retrieval, which finds semantically similar documents but doesn\x27t capture relationships between entities.\n\nGraphRAG uses Neo4j\x27s graph structure to:\n- Query with Cypher for precise pattern matching\n- Traverse relationships to find multi-hop context\n- Understand how entities are connected\n- Provide transparent reasoning paths\n\nWhile vector databases are great for similarity search, they miss the semantic relationships that graphs naturally encode. The ideal architecture often combines both: vectors for similarity, graphs for relationships."

/-- Fourth canned narrative of the `responses` table. -/
def cannedAnswer4 : String :=
  "Generative AI faces several critical challenges that graph databases help address:\n\n1. **Response Accuracy**: LLMs tend to hallucinate or generate plausible-sounding but incorrect information. GraphRAG grounds responses in factual, structured knowledge from the graph.\n\n2. **AI Explainability**: Understanding how an AI arrived at a conclusion is crucial for trust and compliance. Graphs provide transparent reasoning paths by showing the relationships traversed to generate a response.\n\n3. **Contextual Understanding**: Comprehending complex relationships between entities is difficult for traditional approaches. Graphs naturally encode context through their relationship structure.\n\nThese challenges are especially severe in regulated industries where accuracy and explainability are mandatory."

/-- Embedding of the `responses` table inside `generateResponse`
(`App.tsx`), keyed by the four example questions. -/
def cannedResponses : List (String × String) :=
  [("How does GraphRAG improve AI accuracy?", cannedAnswer1),
   ("What companies use Neo4j and for what purpose?", cannedAnswer2),
   ("How is GraphRAG different from regular RAG?", cannedAnswer3),
   ("What are the main challenges facing GenAI?", cannedAnswer4)]

/-- Embedding of the no-match answer of `generateResponse`
(the `sources.length === 0` branch). -/
def noInfoString (query : String) : String :=
  "I searched the knowledge graph but couldn\x27t find specific information about \"" ++
  query ++
  "\". The graph contains information about GenAI, graph databases, and their real-world applications. Try asking about GraphRAG, Neo4j use cases, or how graphs improve AI accuracy."

/-- Fallback text used when the first retrieved node has no (truthy)
`description` attribute. -/
def defaultDescText : String :=
  "These concepts are interconnected in the graph, showing how they relate to your question."

/-- Embedding of the generic templated answer of `generateResponse`:
built from all retrieved labels and the first node's `description`
attribute (JavaScript `||` treats an absent or empty string as falsy). -/
def templatedString (s0 : GraphNode) (sources : List GraphNode) : String :=
  let sourceNames := String.intercalate ", " (sources.map (fun s => s.label))
  let desc :=
    match s0.properties.lookup "description" with
    | some d => if d = "" then defaultDescText else d
    | none => defaultDescText
  "Based on the knowledge graph, I found relevant information in " ++ sourceNames ++
  ". " ++ desc ++
  " The graph structure helps me understand these relationships and provide more accurate, explainable responses."

/-- The generic branch of `generateResponse` (reached when no canned
answer applies). -/
def genericResponse (query : String) (sources : List GraphNode) : String :=
  match sources with
  | [] => noInfoString query
  | s0 :: _ => templatedString s0 sources

/-- The canned-table lookup inside `generateResponse`:
`Object.entries(responses).find(([key]) => matchingQuery.natural.includes(key))`. -/
def cannedFind (q : SampleQuery) : Option (String × String) :=
  cannedResponses.find? (fun kv => jsIncludes q.natural kv.1)

/-- Embedding of `generateResponse` (`App.tsx`). -/
def generateResponse (query : String) (sources : List GraphNode)
    (mq : Option SampleQuery) : String :=
  match mq with
  | some q =>
    match cannedFind q with
    | some kv => kv.2
    | none => genericResponse query sources
  | none => genericResponse query sources

/-- The normalized three-word lookup key of a stored example question:
`q.natural.toLowerCase().split(' ').slice(0, 3).join(' ').toLowerCase()`. -/
def firstThreeWords (q : SampleQuery) : String :=
  jsToLower (String.intercalate " " ((jsSplitSpace (jsToLower q.natural)).take 3))

/-- Embedding of the `sampleQueries.find(...)` step of `handleSendMessage`:
the lowercased query must contain the example's three-word key. -/
def findMatchingQuery (content : String) : Option SampleQuery :=
  sampleQueries.find? (fun q => jsIncludes (jsToLower content) (firstThreeWords q))

/-- The pure data computed by `handleSendMessage` for one submitted query:
the answer text, the retrieved node list, and the attached Cypher
pattern (`matchingQuery?.cypher`). -/
def processQuery (content : String) (g : GraphData) :
    String × List GraphNode × Option String :=
  let mq := findMatchingQuery content
  let nodes := simulateGraphRetrieval content g
  (generateResponse content nodes mq, nodes, mq.map (fun q => q.cypher))

/-- Embedding of `streamText` (`lib/utils.ts`): the list of chunks the
generator yields for a given text; the inter-chunk delay does not
affect the emitted content. -/
def streamText (text : String) (delayMs : Nat) : List String :=
  (chunksAux (splitSpace text.data)).map (fun l => (⟨l⟩ : String))

/-- A user-level highlight event of the host application: a retrieval
completing (`setHighlightedNodes(relevantNodes.map(n => n.id))`) or a
node selection (`handleNodeSelect`). -/
inductive UEvent where
  | retrieval (ids : List String)
  | select (sel : Option String)
deriving DecidableEq

/-- A timeline event: a user event, or the firing of a
`setTimeout(() => setHighlightedNodes([]), 3000)` callback. -/
inductive TEvent where
  | user (e : UEvent)
  | timerFire
deriving DecidableEq

/-- Effect of one timeline event on the `highlightedNodes` state
(`App.tsx`): retrieval installs the retrieved ids, selection installs
`[node.id]` or clears, and a fired timeout callback clears. -/
def applyT (hl : List String) (e : TEvent) : List String :=
  match e with
  | TEvent.user (UEvent.retrieval ids) => ids
  | TEvent.user (UEvent.select (some i)) => [i]
  | TEvent.user (UEvent.select none) => []
  | TEvent.timerFire => []

/-- Inserts a timed event into a time-sorted timeline, after any event
carrying the same timestamp. -/
def insertByTime (x : Nat × TEvent) : List (Nat × TEvent) → List (Nat × TEvent)
  | [] => [x]
  | y :: ys => if x.1 < y.1 then x :: y :: ys else y :: insertByTime x ys

/-- The full event timeline the code produces for a list of timestamped
user events: `handleSendMessage` schedules a clear at `t + 3000` for
every retrieval completing at `t`, and never calls `clearTimeout`, so
every scheduled clear fires. -/
def expandTimeline (evs : List (Nat × UEvent)) : List (Nat × TEvent) :=
  let base := evs.map (fun te => (te.1, TEvent.user te.2))
  let fires := evs.filterMap (fun te =>
    match te.2 with
    | UEvent.retrieval _ => some (te.1 + 3000, TEvent.timerFire)
    | UEvent.select _ => none)
  fires.foldl (fun acc f => insertByTime f acc) base

/-- Runs a timeline from the initial empty highlight set. -/
def runTimeline (evs : List (Nat × TEvent)) : List String :=
  evs.foldl (fun hl te => applyT hl te.2) []

/-- The highlight set the application holds after the given timestamped
user events and every timeout they scheduled has been processed. -/
def appHighlights (evs : List (Nat × UEvent)) : List String :=
  runTimeline (expandTimeline evs)

/-- Effect of one `setMessages(prev => prev.map(msg => msg.id === id ?
\x7b...msg, content\x7d : msg))` update: every message whose id matches is
set to the new content. An op is `(message id, new content)`. -/
def applyOp (msgs : List (String × String)) (op : String × String) :
    List (String × String) :=
  msgs.map (fun p => if p.1 = op.1 then (p.1, op.2) else p)

/-- Runs an interleaved schedule of content updates over the message
list, in emission order. -/
def runStream (msgs : List (String × String)) (ops : List (String × String)) :
    List (String × String) :=
  ops.foldl applyOp msgs

/-- Content of the first message with the given id. -/
def lookupContent (mid : String) : List (String × String) → Option String
  | [] => none
  | p :: rest => if p.1 = mid then some p.2 else lookupContent mid rest

/-- The last content written for the given message id in a schedule. -/
def lastSet (mid : String) : List (String × String) → Option String
  | [] => none
  | op :: rest =>
    match lastSet mid rest with
    | some v => some v
    | none => if op.1 = mid then some op.2 else none

/-- Embedding of JavaScript `highlightedNodes.includes(v)` on the
string array when `v` is an edge endpoint: `includes` compares with
SameValueZero, and a node object is never equal to a string, so only an
id-string endpoint can be found (the `as string` cast in the source is
erased at runtime and does not convert the value). -/
def includesEndpoint (highlightedNodes : List String) (e : EdgeEndpoint) : Bool :=
  match e with
  | EdgeEndpoint.id s => highlightedNodes.contains s
  | EdgeEndpoint.node _ => false

/-- Embedding of the edge-highlight test of `GraphVisualization.tsx`:
`highlightedNodes.includes(d.source as string) && highlightedNodes.includes(d.target as string)`,
evaluated on the runtime endpoint values. -/
def edgeHighlighted (highlightedNodes : List String) (r : GraphRel) : Bool :=
  includesEndpoint highlightedNodes r.source &&
    includesEndpoint highlightedNodes r.target

/-- Modelled from the spec: the link-force initialization of the d3
library (invoked when the simulation is created, before the highlight
attributes are computed) resolves each endpoint id to a live reference
to the node object, mutating the link in place — the spec's design
notes call this out as "edges holding live references to node objects";
the tick handler's `d.source.x` reads depend on exactly this
resolution. -/
def resolveEndpoint (nodes : List GraphNode) (e : EdgeEndpoint) : EdgeEndpoint :=
  match e with
  | EdgeEndpoint.node n => EdgeEndpoint.node n
  | EdgeEndpoint.id s =>
    match nodes.find? (fun n => n.id == s) with
    | some n => EdgeEndpoint.node n
    | none => EdgeEndpoint.id s

/-- Modelled from the spec: both endpoints of a link after the link
force has initialized. -/
def resolveLink (nodes : List GraphNode) (r : GraphRel) : GraphRel :=
  { r with
    source := resolveEndpoint nodes r.source,
    target := resolveEndpoint nodes r.target }

/-- The selection-related state of `App.tsx`: the selected node and the
highlight set. -/
structure AppSel where
  selectedNode : Option GraphNode
  highlightedNodes : List String
deriving DecidableEq

/-- Embedding of `handleNodeSelect` (`App.tsx`): selecting a node
installs it and highlights exactly it; passing `null` clears both. -/
def handleNodeSelect (node : Option GraphNode) : AppSel :=
  match node with
  | some n => { selectedNode := some n, highlightedNodes := [n.id] }
  | none => { selectedNode := none, highlightedNodes := [] }

/-- Embedding of the node click handler of `GraphVisualization.tsx`:
`onNodeSelect(selectedNode?.id === d.id ? null : d)`. -/
def clickNode (s : AppSel) (d : GraphNode) : AppSel :=
  handleNodeSelect
    (if s.selectedNode.map GraphNode.id = some d.id then none else some d)

/-- Modelled from the spec: the fixed alpha decay rate of the force
simulation (`alpha *= 1 - decayRate`, decayRate = 0.0228); the decay
loop itself lives in the d3-force library, not in this repository. -/
def alphaDecayRate : ℚ := 57 / 2500

/-- Modelled from the spec: the settlement threshold for alpha. -/
def alphaMin : ℚ := 1 / 1000

/-- Modelled from the spec: per-node simulation state (position,
velocity, optional pinned position set by the drag handlers of
`GraphVisualization.tsx`). -/
structure SimNode where
  id : String
  x : ℚ
  y : ℚ
  vx : ℚ
  vy : ℚ
  pin : Option (ℚ × ℚ)
deriving DecidableEq

/-- Modelled from the spec: the force-layout state, node states plus the
cooling scalar alpha. -/
structure SimState where
  nodes : List SimNode
  alpha : ℚ
deriving DecidableEq

/-- Modelled from the spec: one node's integration step under net force
`f` at temperature `a` — integrate velocity then position, then for a
pinned node overwrite the position with the pin and zero the velocity
after integration. -/
def tickNode (a : ℚ) (f : ℚ × ℚ) (n : SimNode) : SimNode :=
  let vx := n.vx + f.1 * a
  let vy := n.vy + f.2 * a
  let x := n.x + vx
  let y := n.y + vy
  match n.pin with
  | some p => { n with x := p.1, y := p.2, vx := 0, vy := 0 }
  | none => { n with x := x, y := y, vx := vx, vy := vy }

/-- Modelled from the spec: one simulation tick — decay alpha by the
fixed rate, then integrate every node under the net force. The net
per-node force (link, many-body, centering, collision) is computed
inside the d3-force library, so it is abstracted here as a parameter;
every theorem below holds for an arbitrary force function. -/
def tick (force : SimState → SimNode → ℚ × ℚ) (s : SimState) : SimState :=
  let a := s.alpha * (1 - alphaDecayRate)
  { nodes := s.nodes.map (fun n => tickNode a (force s n) n), alpha := a }

/-- Modelled from the spec: `createLayout` — initial placement with
alpha = 1.0 for the nodes of a Graph Store. -/
def initSim (g : GraphData) : SimState :=
  { nodes := g.nodes.map (fun n =>
      { id := n.id, x := 0, y := 0, vx := 0, vy := 0, pin := none }),
    alpha := 1 }

/-- Node position and velocity invariant: the node at index `i` carries
pin `p`. -/
def pinnedAt (s : SimState) (i : Nat) (p : ℚ × ℚ) : Prop :=
  ∃ h : i < s.nodes.length, (s.nodes.get ⟨i, h⟩).pin = some p

/-- The node at index `i` sits exactly at the pin `p` with zero velocity
and is still pinned there. -/
def restingAt (s : SimState) (i : Nat) (p : ℚ × ℚ) : Prop :=
  ∃ h : i < s.nodes.length,
    (s.nodes.get ⟨i, h⟩).x = p.1 ∧ (s.nodes.get ⟨i, h⟩).y = p.2 ∧
    (s.nodes.get ⟨i, h⟩).vx = 0 ∧ (s.nodes.get ⟨i, h⟩).vy = 0 ∧
    (s.nodes.get ⟨i, h⟩).pin = some p

/-- Fixture: the Response Accuracy node of the sample dataset. -/
def wNodeAcc : GraphNode :=
  { id := "accuracy", label := "Response Accuracy", type := "Concept",
    properties :=
      [("description", "Correctness and factual grounding of AI-generated content")] }

/-- Fixture: the Neo4j node of the sample dataset. -/
def wNodeNeo : GraphNode :=
  { id := "neo4j", label := "Neo4j", type := "Technology",
    properties := [("description", "Leading graph database platform")] }

/-- Fixture: a two-node store with one relationship. -/
def wStore : GraphData :=
  { nodes := [wNodeAcc, wNodeNeo],
    relationships := [{ id := "r8", source := EdgeEndpoint.id "graphrag",
                        target := EdgeEndpoint.id "accuracy", type := "IMPROVES" }] }

/-- Fixture: an empty store. -/
def wEmptyStore : GraphData := { nodes := [], relationships := [] }

/-- Fixture: node A for the edge-highlight scenario. -/
def wNodeA : GraphNode :=
  { id := "A", label := "A", type := "Concept", properties := [] }

/-- Fixture: node B for the edge-highlight scenario. -/
def wNodeB : GraphNode :=
  { id := "B", label := "B", type := "Concept", properties := [] }

/-- Fixture: the edge from A to B as it appears in the dataset literal,
with id-string endpoints. -/
def wEdgeAB : GraphRel :=
  { id := "eAB", source := EdgeEndpoint.id "A",
    target := EdgeEndpoint.id "B", type := "REL" }

/-- Fixture: the trivial force function. -/
def zeroForce : SimState → SimNode → ℚ × ℚ := fun _ _ => (0, 0)

/-- Fixture: a one-node simulation state whose node is pinned at (9, 10). -/
def wPinnedState : SimState :=
  { nodes := [{ id := "n1", x := 5, y := 6, vx := 1, vy := 2, pin := some (9, 10) }],
    alpha := 1 }

/-- Fixture: the first example question, as a user would submit it. -/
def wContent : String := "How does GraphRAG improve AI accuracy?"

theorem splitSpace_ne_nil (l : List Char) : splitSpace l ≠ [] := by
  cases l with
  | nil => simp [splitSpace]
  | cons c cs =>
    simp only [splitSpace]
    split
    · simp
    · split <;> simp

theorem joinSpace_cons_cons (a b : List Char) (t : List (List Char)) :
    joinSpace (a :: b :: t) = a ++ ' ' :: joinSpace (b :: t) := rfl

theorem joinSpace_splitSpace (l : List Char) : joinSpace (splitSpace l) = l := by
  induction l with
  | nil => rfl
  | cons c cs ih =>
    obtain ⟨w, ws, hws⟩ := List.exists_cons_of_ne_nil (splitSpace_ne_nil cs)
    by_cases hc : c = ' '
    · have hsp : splitSpace (c :: cs) = [] :: w :: ws := by
        simp [splitSpace, hc, hws]
      rw [hsp, joinSpace_cons_cons, ← hws, ih]
      simp [hc]
    · have hsp : splitSpace (c :: cs) = (c :: w) :: ws := by
        simp [splitSpace, hc, hws]
      rw [hsp]
      cases ws with
      | nil =>
        have hj : joinSpace [w] = cs := by rw [← hws, ih]
        simp only [joinSpace] at hj ⊢
        rw [hj]
      | cons y t =>
        have hj : joinSpace (w :: y :: t) = cs := by rw [← hws, ih]
        rw [joinSpace_cons_cons] at hj
        rw [joinSpace_cons_cons]
        simp [← hj]

theorem join_chunksAux (ws : List (List Char)) :
    (chunksAux ws).join = joinSpace ws := by
  induction ws with
  | nil => rfl
  | cons w t ih =>
    cases t with
    | nil => simp [chunksAux, joinSpace]
    | cons y r =>
      rw [joinSpace_cons_cons]
      simp only [chunksAux, List.join_cons, ih]
      simp

theorem foldl_append_mk (ls : List (List Char)) (acc : String) :
    (ls.map (fun l => (⟨l⟩ : String))).foldl (fun a c => a ++ c) acc =
      ⟨acc.data ++ ls.join⟩ := by
  induction ls generalizing acc with
  | nil => simp
  | cons l t ih =>
    simp only [List.map_cons, List.foldl_cons, ih, List.join_cons]
    apply congrArg String.mk
    rw [String.data_append]
    simp

/-- C10: for every input string and every delay value, concatenating in
order all chunks yielded by `streamText` reproduces the input exactly
(the word-splitting and per-chunk space re-insertion is a lossless
round trip, including repeated spaces). -/
theorem c10_streamText_roundtrip (text : String) (delayMs : Nat) :
    (streamText text delayMs).foldl (fun acc c => acc ++ c) "" = text := by
  unfold streamText
  rw [foldl_append_mk]
  show (⟨"".data ++ (chunksAux (splitSpace text.data)).join⟩ : String) = text
  rw [join_chunksAux, joinSpace_splitSpace]
  rfl

/-- C5 (code bug): the claim and the spec require an edge to be
highlighted iff both endpoint ids are in the highlight set, but by the
time the highlight test runs, the link force has already replaced both
endpoint strings with node objects, and `includes` on a string array
never finds a node object — so the test is false for every highlight
set and every resolved edge; in particular, with highlight set
consisting of A and B, the resolved edge from A to B is NOT highlighted,
where the claim requires it to be highlighted. -/
theorem c5_edge_highlight_never_true :
    (∀ (hl : List String) (eid et : String) (na nb : GraphNode),
      edgeHighlighted hl
        { id := eid, source := EdgeEndpoint.node na,
          target := EdgeEndpoint.node nb, type := et } = false) ∧
    resolveLink [wNodeA, wNodeB] wEdgeAB =
      { id := "eAB", source := EdgeEndpoint.node wNodeA,
        target := EdgeEndpoint.node wNodeB, type := "REL" } ∧
    edgeHighlighted ["A", "B"] (resolveLink [wNodeA, wNodeB] wEdgeAB) = false :=
  ⟨fun hl eid et na nb => rfl, by decide, by decide⟩

/-- C9: selecting a node and then selecting it again toggles the
selection off and leaves the highlight set empty (whenever the first
click actually selects, i.e. the node was not already the selected
one). -/
theorem c9_select_toggle_off (s : AppSel) (d : GraphNode)
    (h : s.selectedNode.map GraphNode.id ≠ some d.id) :
    (clickNode (clickNode s d) d).highlightedNodes = [] ∧
    (clickNode (clickNode s d) d).selectedNode = none := by
  have h1 : clickNode s d = { selectedNode := some d, highlightedNodes := [d.id] } := by
    unfold clickNode
    rw [if_neg h]
    rfl
  rw [h1]
  unfold clickNode
  simp [handleNodeSelect]

/-- Witness for C9 at a concrete state and node. -/
theorem c9_witness :
    ({ selectedNode := none, highlightedNodes := [] } : AppSel).selectedNode.map
        GraphNode.id ≠ some wNodeAcc.id ∧
    ((clickNode (clickNode { selectedNode := none, highlightedNodes := [] } wNodeAcc)
        wNodeAcc).highlightedNodes = [] ∧
      (clickNode (clickNode { selectedNode := none, highlightedNodes := [] } wNodeAcc)
        wNodeAcc).selectedNode = none) :=
  ⟨by decide, c9_select_toggle_off _ _ (by decide)⟩

theorem retrieval_sublist (query : String) (g : GraphData) :
    (simulateGraphRetrieval query g).Sublist g.nodes :=
  (List.take_sublist _ _).trans (List.filter_sublist _)

/-- C1: for every query string and every valid Graph Store (distinct
node ids), retrieval returns an ordered sequence of at most 3 nodes
(the default limit) with pairwise-distinct ids, each an element of the
store's node set, and the sequence is exactly the first 3 matching
nodes in Graph-Store iteration order (first-match-wins truncation). -/
theorem c1_retrieval_shape (query : String) (g : GraphData)
    (h : (g.nodes.map GraphNode.id).Nodup) :
    (simulateGraphRetrieval query g).length ≤ 3 ∧
    ((simulateGraphRetrieval query g).map GraphNode.id).Nodup ∧
    (∀ n ∈ simulateGraphRetrieval query g, n ∈ g.nodes) ∧
    simulateGraphRetrieval query g =
      (g.nodes.filter (nodeMatches (queryKeywords query))).take 3 := by
  refine ⟨?_, ?_, ?_, rfl⟩
  · exact (List.length_take 3 (matchedNodes query g)).le.trans (min_le_left _ _)
  · exact ((retrieval_sublist query g).map GraphNode.id).nodup h
  · exact fun n hn => (retrieval_sublist query g).subset hn

/-- Witness for C1 on a concrete two-node store. -/
theorem c1_witness :
    (wStore.nodes.map GraphNode.id).Nodup ∧
    ((simulateGraphRetrieval "graph database" wStore).length ≤ 3 ∧
      ((simulateGraphRetrieval "graph database" wStore).map GraphNode.id).Nodup ∧
      (∀ n ∈ simulateGraphRetrieval "graph database" wStore, n ∈ wStore.nodes) ∧
      simulateGraphRetrieval "graph database" wStore =
        (wStore.nodes.filter (nodeMatches (queryKeywords "graph database"))).take 3) :=
  ⟨by decide, c1_retrieval_shape "graph database" wStore (by decide)⟩

theorem nodeMatches_short (keywords : List String)
    (hs : ∀ t ∈ keywords, t.length ≤ 3) (n : GraphNode) :
    nodeMatches keywords n = false := by
  unfold nodeMatches
  rw [← Bool.not_eq_true, List.any_eq_true]
  rintro ⟨t, ht, hp⟩
  rw [Bool.and_eq_true, decide_eq_true_iff] at hp
  exact absurd (hs t ht) (not_le.mpr hp.1)

theorem retrieval_empty_of_short (query : String) (g : GraphData)
    (hs : ∀ t ∈ queryKeywords query, t.length ≤ 3) :
    simulateGraphRetrieval query g = [] := by
  unfold simulateGraphRetrieval matchedNodes
  rw [List.filter_eq_nil_iff.mpr
    (fun n _ => by simp [nodeMatches_short (queryKeywords query) hs n])]
  rfl

/-- C2: a node is among the retrieval matches iff some lowercase token
of the query with length strictly greater than 3 is a substring of the
lowercased blob built from the node's label and its serialized
attributes; and retrieval on the empty query, or on a query consisting
only of tokens of length at most 3, returns the empty sequence. -/
theorem c2_match_characterization (query : String) (g : GraphData) (n : GraphNode) :
    (n ∈ matchedNodes query g ↔
      n ∈ g.nodes ∧ ∃ t ∈ queryKeywords query,
        3 < t.length ∧ jsIncludes (nodeText n) t = true) ∧
    simulateGraphRetrieval "" g = [] ∧
    ((∀ t ∈ queryKeywords query, t.length ≤ 3) →
      simulateGraphRetrieval query g = []) := by
  refine ⟨?_, ?_, retrieval_empty_of_short query g⟩
  · unfold matchedNodes nodeMatches
    rw [List.mem_filter, List.any_eq_true]
    simp only [Bool.and_eq_true, decide_eq_true_iff]
  · exact retrieval_empty_of_short "" g (by decide)

/-- Witness for C2 on a short-token query over a concrete store. -/
theorem c2_witness :
    (∀ t ∈ queryKeywords "hi yo", t.length ≤ 3) ∧
    simulateGraphRetrieval "hi yo" wStore = [] :=
  ⟨by decide, (c2_match_characterization "hi yo" wStore wNodeAcc).2.2 (by decide)⟩

set_option maxRecDepth 16384 in
/-- C6: when the lowercase query contains the first three words of a
stored example question, the precomputed narrative answer and the
associated Cypher query-pattern string are returned alongside the
retrieved node list; otherwise the answer is the generic templated
answer synthesized from the retrieved nodes (labels plus the first
node's description attribute), or the no-information message when the
retrieved set is empty. -/
theorem c6_canned_answer_lookup (content : String) (g : GraphData) :
    (∀ q, findMatchingQuery content = some q →
      ∃ narr, cannedFind q = some (q.natural, narr) ∧
        processQuery content g =
          (narr, simulateGraphRetrieval content g, some q.cypher)) ∧
    (findMatchingQuery content = none →
      processQuery content g =
        (genericResponse content (simulateGraphRetrieval content g),
         simulateGraphRetrieval content g, none) ∧
      (simulateGraphRetrieval content g = [] →
        genericResponse content (simulateGraphRetrieval content g) =
          noInfoString content) ∧
      (∀ s0 rest, simulateGraphRetrieval content g = s0 :: rest →
        genericResponse content (simulateGraphRetrieval content g) =
          templatedString s0 (simulateGraphRetrieval content g))) := by
  constructor
  · intro q hq
    have hmem : q ∈ sampleQueries := List.mem_of_find?_eq_some hq
    have hc : q = sampleQuery1 ∨ q = sampleQuery2 ∨ q = sampleQuery3 ∨ q = sampleQuery4 := by
      simpa [sampleQueries] using hmem
    rcases hc with h | h | h | h <;> subst h
    · have hfind : cannedFind sampleQuery1 = some (sampleQuery1.natural, cannedAnswer1) := by decide
      exact ⟨cannedAnswer1, hfind, by simp [processQuery, hq, generateResponse, hfind]⟩
    · have hfind : cannedFind sampleQuery2 = some (sampleQuery2.natural, cannedAnswer2) := by decide
      exact ⟨cannedAnswer2, hfind, by simp [processQuery, hq, generateResponse, hfind]⟩
    · have hfind : cannedFind sampleQuery3 = some (sampleQuery3.natural, cannedAnswer3) := by decide
      exact ⟨cannedAnswer3, hfind, by simp [processQuery, hq, generateResponse, hfind]⟩
    · have hfind : cannedFind sampleQuery4 = some (sampleQuery4.natural, cannedAnswer4) := by decide
      exact ⟨cannedAnswer4, hfind, by simp [processQuery, hq, generateResponse, hfind]⟩
  · intro hq
    refine ⟨by simp [processQuery, hq, generateResponse], ?_, ?_⟩
    · intro he
      rw [he]
      rfl
    · intro s0 rest hr
      rw [hr]
      rfl

set_option maxRecDepth 16384 in
/-- Witness for C6 at the first stored example question over the empty
store. -/
theorem c6_witness :
    findMatchingQuery wContent = some sampleQuery1 ∧
    (∃ narr, cannedFind sampleQuery1 = some (sampleQuery1.natural, narr) ∧
      processQuery wContent wEmptyStore =
        (narr, simulateGraphRetrieval wContent wEmptyStore, some sampleQuery1.cypher)) :=
  ⟨by decide, (c6_canned_answer_lookup wContent wEmptyStore).1 sampleQuery1 (by decide)⟩

/-- C3 counterexample: a retrieval at time 0 highlights node a, a
selection at time 1000 highlights node b, and the retrieval's
3000 ms expiry — which the code never cancels — then wipes the
selection's highlight, leaving the empty set instead of b. -/
theorem c3_counterexample :
    appHighlights [(0, UEvent.retrieval ["a"]), (1000, UEvent.select (some "b"))] = [] ∧
    (["b"] : List String) ≠ [] :=
  ⟨by decide, by decide⟩

theorem insertByTime_perm (x : Nat × TEvent) (l : List (Nat × TEvent)) :
    (insertByTime x l).Perm (x :: l) := by
  induction l with
  | nil => exact List.Perm.refl _
  | cons y ys ih =>
    unfold insertByTime
    split
    · exact List.Perm.refl _
    · exact (ih.cons y).trans (List.Perm.swap x y ys)

theorem foldl_insertByTime_perm (fs : List (Nat × TEvent)) (base : List (Nat × TEvent)) :
    (fs.foldl (fun acc f => insertByTime f acc) base).Perm (base ++ fs) := by
  induction fs generalizing base with
  | nil => simp
  | cons f t ih =>
    refine ((ih (insertByTime f base)).trans ?_)
    refine (((insertByTime_perm f base).append_right t).trans ?_)
    exact List.perm_middle.symm

theorem retrievalFires_length (evs : List (Nat × UEvent)) :
    (evs.filterMap (fun te =>
      match te.2 with
      | UEvent.retrieval _ => some (te.1 + 3000, TEvent.timerFire)
      | UEvent.select _ => none)).length =
    (evs.filter (fun ue => match ue.2 with
      | UEvent.retrieval _ => true
      | UEvent.select _ => false)).length := by
  induction evs with
  | nil => rfl
  | cons e t ih =>
    obtain ⟨ts, ue⟩ := e
    cases ue <;> simp [List.filterMap_cons, List.filter_cons, ih]

/-- C3 amended: the pending 3000 ms clear scheduled by a retrieval is
never cancelled — one clear is scheduled per retrieval and stays in
the timeline, and whenever a clear fires it unconditionally resets the
highlight set to empty, regardless of any intervening selection or
retrieval events. -/
theorem c3_amended_uncancelled_expiry (evs : List (Nat × UEvent))
    (l : List (Nat × TEvent)) (t : Nat) :
    runTimeline (l ++ [(t, TEvent.timerFire)]) = [] ∧
    ((expandTimeline evs).filter (fun te => match te.2 with
      | TEvent.timerFire => true
      | TEvent.user _ => false)).length =
      (evs.filter (fun ue => match ue.2 with
        | UEvent.retrieval _ => true
        | UEvent.select _ => false)).length := by
  constructor
  · unfold runTimeline
    rw [List.foldl_append]
    rfl
  · have hperm := foldl_insertByTime_perm
      (evs.filterMap (fun te =>
        match te.2 with
        | UEvent.retrieval _ => some (te.1 + 3000, TEvent.timerFire)
        | UEvent.select _ => none))
      (evs.map (fun te => (te.1, TEvent.user te.2)))
    unfold expandTimeline
    rw [(hperm.filter _).length_eq, List.filter_append]
    have hbase : (evs.map (fun te => (te.1, TEvent.user te.2))).filter
        (fun te => match te.2 with
          | TEvent.timerFire => true
          | TEvent.user _ => false) = [] := by
      rw [List.filter_eq_nil_iff]
      rintro a ha
      obtain ⟨e, _, rfl⟩ := List.mem_map.mp ha
      simp
    have hfires : (evs.filterMap (fun te =>
        match te.2 with
        | UEvent.retrieval _ => some (te.1 + 3000, TEvent.timerFire)
        | UEvent.select _ => none)).filter
        (fun te => match te.2 with
          | TEvent.timerFire => true
          | TEvent.user _ => false) =
        evs.filterMap (fun te =>
          match te.2 with
          | UEvent.retrieval _ => some (te.1 + 3000, TEvent.timerFire)
          | UEvent.select _ => none) := by
      rw [List.filter_eq_self]
      intro a ha
      obtain ⟨e, _, he⟩ := List.mem_filterMap.mp ha
      obtain ⟨ts, ue⟩ := e
      cases ue with
      | retrieval ids =>
        simp only at he
        cases he
        rfl
      | select s => simp at he
    rw [hbase, hfires, List.nil_append]
    exact retrievalFires_length evs

/-- C4 counterexample: with two messages and an interleaved schedule of
content updates from two concurrently emitting queries, the first
query's message ends holding its full narrative — its output is not
discarded, so the final emitted content is not the second query's
narrative only. -/
theorem c4_counterexample :
    runStream [("m1", ""), ("m2", "")]
        [("m1", "Hello"), ("m2", "Graph"), ("m1", "Hello world"), ("m2", "Graph answer")] =
      [("m1", "Hello world"), ("m2", "Graph answer")] ∧
    lookupContent "m1"
        (runStream [("m1", ""), ("m2", "")]
          [("m1", "Hello"), ("m2", "Graph"), ("m1", "Hello world"), ("m2", "Graph answer")]) =
      some "Hello world" ∧
    ("Hello world" : String) ≠ "" :=
  ⟨by decide, by decide, by decide⟩

theorem lookupContent_applyOp (mid : String) (op : String × String)
    (msgs : List (String × String)) :
    lookupContent mid (applyOp msgs op) =
      (lookupContent mid msgs).map (fun orig => if mid = op.1 then op.2 else orig) := by
  induction msgs with
  | nil => rfl
  | cons p rest ih =>
    simp only [applyOp, List.map_cons]
    by_cases h2 : p.1 = op.1
    · simp only [if_pos h2, lookupContent]
      by_cases h1 : p.1 = mid
      · have hm : mid = op.1 := h1.symm.trans h2
        simp [h1, hm]
      · simpa [h1] using ih
    · simp only [if_neg h2, lookupContent]
      by_cases h1 : p.1 = mid
      · have hm : ¬mid = op.1 := fun he => h2 (h1.trans he)
        simp [h1, hm]
      · simpa [h1] using ih

/-- C4 amended: concurrent emissions are not cancelled; each query keeps
overwriting only its own message, so after any interleaved schedule of
updates the content of every message equals the last content written
for that message id (its own full narrative once its emission
finishes), with no fragments of the other query's output merged in. -/
theorem c4_amended_last_writer (msgs : List (String × String))
    (ops : List (String × String)) (mid : String) :
    lookupContent mid (runStream msgs ops) =
      (lookupContent mid msgs).map (fun orig => (lastSet mid ops).getD orig) := by
  induction ops generalizing msgs with
  | nil => cases h : lookupContent mid msgs <;> simp [runStream, lastSet, h]
  | cons op rest ih =>
    have h1 : runStream msgs (op :: rest) = runStream (applyOp msgs op) rest := rfl
    rw [h1, ih, lookupContent_applyOp]
    cases h : lookupContent mid msgs with
    | none => rfl
    | some orig =>
      show some ((lastSet mid rest).getD (if mid = op.1 then op.2 else orig)) =
        some ((lastSet mid (op :: rest)).getD orig)
      have hstep : lastSet mid (op :: rest) =
          match lastSet mid rest with
          | some v => some v
          | none => if op.1 = mid then some op.2 else none := rfl
      rw [hstep]
      cases hls : lastSet mid rest with
      | some v => simp
      | none =>
        by_cases hm : mid = op.1
        · simp [hm]
        · simp [hm, show ¬op.1 = mid from fun he => hm he.symm]

theorem tickNode_of_pin (a : ℚ) (f : ℚ × ℚ) (n : SimNode) (p : ℚ × ℚ)
    (h : n.pin = some p) :
    tickNode a f n = { n with x := p.1, y := p.2, vx := 0, vy := 0 } := by
  simp [tickNode, h]

theorem tick_get (force : SimState → SimNode → ℚ × ℚ) (s : SimState) (i : Nat)
    (hi : i < s.nodes.length) :
    ∃ hi2 : i < (tick force s).nodes.length,
      (tick force s).nodes.get ⟨i, hi2⟩ =
        tickNode (s.alpha * (1 - alphaDecayRate)) (force s (s.nodes.get ⟨i, hi⟩))
          (s.nodes.get ⟨i, hi⟩) := by
  refine ⟨by simpa [tick] using hi, ?_⟩
  simp [tick, List.get_map]

theorem restingAt_pinnedAt {s : SimState} {i : Nat} {p : ℚ × ℚ}
    (h : restingAt s i p) : pinnedAt s i p := by
  obtain ⟨hi, _, _, _, _, hpin⟩ := h
  exact ⟨hi, hpin⟩

theorem tick_preserves_pin (force : SimState → SimNode → ℚ × ℚ) (s : SimState)
    (i : Nat) (p : ℚ × ℚ) (h : pinnedAt s i p) :
    restingAt (tick force s) i p := by
  obtain ⟨hi, hpin⟩ := h
  obtain ⟨hi2, hget⟩ := tick_get force s i hi
  refine ⟨hi2, ?_⟩
  rw [hget, tickNode_of_pin _ _ _ _ hpin]
  exact ⟨rfl, rfl, rfl, rfl, hpin⟩

/-- C7: while a node is pinned, every simulation tick (one or more, for
any force function) leaves that node's position exactly equal to the
pin coordinates and its velocity zeroed after integration, and the
node stays pinned there until unpinned. -/
theorem c7_pinned_node_fixed (force : SimState → SimNode → ℚ × ℚ) (s : SimState)
    (i : Nat) (p : ℚ × ℚ) (k : Nat) (hk : 1 ≤ k) (h : pinnedAt s i p) :
    restingAt ((tick force)^[k] s) i p := by
  induction k, hk using Nat.le_induction with
  | base =>
    rw [Function.iterate_one]
    exact tick_preserves_pin force s i p h
  | succ k hk ih =>
    rw [Function.iterate_succ_apply']
    exact tick_preserves_pin _ _ _ _ (restingAt_pinnedAt ih)

/-- Witness for C7 on a one-node state pinned at (9, 10). -/
theorem c7_witness :
    pinnedAt wPinnedState 0 (9, 10) ∧
    restingAt ((tick zeroForce)^[1] wPinnedState) 0 (9, 10) := by
  have hp : pinnedAt wPinnedState 0 (9, 10) := ⟨by decide, by decide⟩
  exact ⟨hp, c7_pinned_node_fixed zeroForce wPinnedState 0 (9, 10) 1 (le_refl 1) hp⟩

theorem alpha_iterate (force : SimState → SimNode → ℚ × ℚ) (s : SimState) (k : Nat) :
    ((tick force)^[k] s).alpha = s.alpha * (1 - alphaDecayRate) ^ k := by
  induction k with
  | zero => simp
  | succ k ih =>
    rw [Function.iterate_succ_apply']
    show ((tick force)^[k] s).alpha * (1 - alphaDecayRate) = _
    rw [ih, pow_succ]
    ring

/-- C8: for every Graph Store with at most 50 nodes and any force
function, iterating tick from alpha = 1.0 with the fixed multiplicative
decay drives alpha below the settlement threshold within 300 ticks,
which is within the claimed bound of 400. -/
theorem c8_settles_within_300_ticks (force : SimState → SimNode → ℚ × ℚ)
    (g : GraphData) (h : g.nodes.length ≤ 50) :
    ((tick force)^[300] (initSim g)).alpha < alphaMin ∧ (300 : Nat) ≤ 400 := by
  refine ⟨?_, by norm_num⟩
  rw [alpha_iterate]
  show (1 : ℚ) * (1 - alphaDecayRate) ^ 300 < alphaMin
  rw [one_mul]
  unfold alphaDecayRate alphaMin
  norm_num

/-- Witness for C8 on a concrete store. -/
theorem c8_witness :
    wEmptyStore.nodes.length ≤ 50 ∧
    (((tick zeroForce)^[300] (initSim wEmptyStore)).alpha < alphaMin ∧
      (300 : Nat) ≤ 400) :=
  ⟨by decide, c8_settles_within_300_ticks zeroForce wEmptyStore (by decide)⟩
